import Mathlib

/-
Verification of the per-process IPC state machine of the binder driver
(drivers/android/binder/process.rs).

The development shallowly embeds the operations of `Process` / `ProcessInner`
as pure Lean functions over explicit state records:

* `ProcessInnerM` models the spinlock-protected block of a `Process`
  (thread table, ready-thread queue, work list, thread-pool counters,
  transaction counter, freeze flags).  Work dispatch (`push_work`), the
  thread-pool counters (`register_thread`, `needs_thread`,
  `set_max_threads`), the freeze state machine (`ioctl_freeze`,
  `drop_outstanding_txn`) and `txns_pending_locked` are modelled over it.
  The condition-variable wait of `ioctl_freeze` is driven by an explicit
  trace of wait outcomes; interference by other threads while the lock is
  released inside the wait is modelled on the transaction counter, the
  single field the wait predicate reads.

* `RefsWorld` models the mutex-protected handle tables (`by_handle`,
  `by_node`) together with the pieces of surrounding state their
  operations touch: the process `is_dead` flag, the ready-thread queue and
  the process work list (for deliveries performed by `request_death`), and
  the remote nodes that handles point at (owner liveness and active death
  list).  Calls into the external `Node` / `NodeDeath` / `Thread`
  collaborators that have no modelled state are recorded in an event log.

* `NodesState` models the owned-node table used by `get_node`.

Ordered maps (kernel red-black trees) are modelled as association lists
sorted by key; machine integers as `Nat`, with the `u32` handle-space bound
made explicit where the source checks it (`checked_add` in the handle
search loop).  Fallible operations return `Except` (or `IRes`, which adds
an explicit `panicked` outcome for the `unwrap()` calls in
`insert_or_update_handle` and the `unreachable!()` in `get_node`).
-/

namespace BinderProc

/-- Error values surfaced by the process code.  `dead` stands for
`BinderError::new_dead()`, the error used when a process or thread is found
dead. -/
inductive BErr where
  | EINVAL
  | EPERM
  | ENOENT
  | ESRCH
  | EAGAIN
  | ERESTARTSYS
  | ENOMEM
  | dead
  deriving DecidableEq

/-- Result of an operation that, besides succeeding or failing with a
`BErr`, can also hit a `.unwrap()` / `unreachable!()` in the source. -/
inductive IRes (α : Type) where
  | ok (a : α)
  | err (e : BErr)
  | panicked
  deriving DecidableEq

/- Association lists sorted by `Nat` key model the kernel red-black trees. -/

/-- Key lookup in an association list (first match). -/
def lookupA {α : Type} (k : Nat) : List (Nat × α) → Option α
  | [] => none
  | (k', v) :: rest => if k = k' then some v else lookupA k rest

/-- Apply `f` to the value stored under key `k` (models `get_mut`). -/
def updateA {α : Type} (k : Nat) (f : α → α) (l : List (Nat × α)) : List (Nat × α) :=
  l.map fun p => if p.1 = k then (p.1, f p.2) else p

/-- Remove the entry with key `k` (models `RBTree::remove`). -/
def removeA {α : Type} (k : Nat) (l : List (Nat × α)) : List (Nat × α) :=
  l.filter fun p => p.1 != k

/-- Insert `(k, v)` keeping the list sorted by key.  The source only inserts
keys it has just computed to be absent (a fresh reservation is consumed), so
no replacement case is needed. -/
def insertA {α : Type} (k : Nat) (v : α) : List (Nat × α) → List (Nat × α)
  | [] => [(k, v)]
  | (k', v') :: rest =>
      if k < k' then (k, v) :: (k', v') :: rest else (k', v') :: insertA k v rest

/-- The keys of an association list, in storage order. -/
def keysA {α : Type} (l : List (Nat × α)) : List Nat := l.map Prod.fst

/- ===== Work dispatch and the spinlock-protected inner state ===== -/

/-- A deliverable work item (`DLArc<dyn DeliverToRead>`).  `sync` is the
value its `should_sync_wakeup()` reports; `selected` records the thread id
passed to `on_thread_selected`, if any. -/
structure WorkItemM where
  sync : Bool
  selected : Option Nat
  deriving DecidableEq

/-- The slice of a `Thread` that `ProcessInner` interacts with: whether its
`push_work` reports `FailedDead`, whether it has a current transaction, its
work queue, and the log of `notify_if_poll_ready` hints it received. -/
structure ThreadM where
  tid : Nat
  looperDead : Bool
  hasTxn : Bool
  queue : List WorkItemM
  pollNotified : List Bool
  deriving DecidableEq

/-- The fields of `Process` protected by the spinlock, restricted to those
the verified operations read or write.  `threads` lists the values of the
pid-keyed thread map in key order; `ready_threads` holds thread ids. -/
structure ProcessInnerM where
  is_manager : Bool
  is_dead : Bool
  threads : List ThreadM
  ready_threads : List Nat
  work : List WorkItemM
  requested_thread_count : Nat
  max_threads : Nat
  started_thread_count : Nat
  outstanding_txns : Nat
  is_frozen : Bool
  sync_recv : Bool
  async_recv : Bool
  deriving DecidableEq

/-- Find a thread by id in the thread table. -/
def findThread (ts : List ThreadM) (tid : Nat) : Option ThreadM :=
  ts.find? fun t => t.tid == tid

/-- Update the thread with the given id. -/
def updThread (ts : List ThreadM) (tid : Nat) (f : ThreadM → ThreadM) : List ThreadM :=
  ts.map fun t => if t.tid = tid then f t else t

/-- Model of `ProcessInner::push_work` (process.rs lines 133-173).  On
failure the error carries the work item back to the caller.  The `none`
branch of the thread lookup is unreachable under the list invariant that
`ready_threads` only holds threads owned by this process (process.rs line
71). -/
def ProcessInnerM.push_work (s : ProcessInnerM) (w : WorkItemM) :
    Except (BErr × WorkItemM) Unit × ProcessInnerM :=
  match s.ready_threads with
  | tid :: rest =>
    -- work.on_thread_selected(&thread)
    let w := { w with selected := some tid }
    let s := { s with ready_threads := rest }
    match findThread s.threads tid with
    | none => (Except.ok (), s)
    | some t =>
      if t.looperDead then
        -- PushWorkRes::FailedDead(work)
        (Except.error (BErr.dead, w), s)
      else
        let ts := updThread s.threads tid (fun th => { th with queue := th.queue ++ [w] })
        (Except.ok (), { s with threads := ts })
  | [] =>
    if s.is_dead then
      (Except.error (BErr.dead, w), s)
    else
      let sync := w.sync
      (Except.ok (),
        { s with
          work := s.work ++ [w],
          threads := s.threads.map
            fun t => { t with pollNotified := t.pollNotified ++ [sync] } })

/-- Model of `ProcessInner::register_thread` (process.rs lines 256-264). -/
def ProcessInnerM.register_thread (s : ProcessInnerM) : Bool × ProcessInnerM :=
  if s.requested_thread_count = 0 then (false, s)
  else
    (true,
      { s with
        requested_thread_count := s.requested_thread_count - 1,
        started_thread_count := s.started_thread_count + 1 })

/-- Model of `Process::needs_thread` (process.rs lines 1063-1072). -/
def ProcessInnerM.needs_thread (s : ProcessInnerM) : Bool × ProcessInnerM :=
  let ret := s.requested_thread_count = 0 && s.ready_threads.isEmpty
      && s.started_thread_count < s.max_threads
  (ret, if ret then { s with requested_thread_count := s.requested_thread_count + 1 } else s)

/-- Model of `Process::set_max_threads` (process.rs lines 1000-1002). -/
def ProcessInnerM.set_max_threads (s : ProcessInnerM) (max : Nat) : ProcessInnerM :=
  { s with max_threads := max }

/-- Model of `ProcessInner::txns_pending_locked` (process.rs lines 291-301). -/
def ProcessInnerM.txns_pending_locked (s : ProcessInnerM) : Bool :=
  if s.outstanding_txns > 0 then true
  else s.threads.any fun t => t.hasTxn

/-- Model of `Process::drop_outstanding_txn` (process.rs lines 1256-1270).
The returned Bool is whether `freeze_wait.notify_all()` is called.  An
underflow is only logged (`pr_err`); the state is returned unchanged. -/
def drop_outstanding_txn (s : ProcessInnerM) : ProcessInnerM × Bool :=
  if s.outstanding_txns = 0 then (s, false)
  else
    let s := { s with outstanding_txns := s.outstanding_txns - 1 }
    (s, s.is_frozen && s.outstanding_txns == 0)

/- ===== Freeze / thaw ===== -/

/-- Outcome of one `CondVar::wait_interruptible_timeout` call. -/
inductive CondVarTimeoutRes where
  | Signal
  | Woken (jiffies : Nat)
  | Timeout
  deriving DecidableEq

/-- Collaborator timing conversion (`kernel::time::msecs_to_jiffies`),
modelled as the identity; only its result being positive for a positive
timeout matters to the control flow. -/
def msecs_to_jiffies (ms : Nat) : Nat := ms

/-- The `BINDER_FREEZE` ioctl argument. -/
structure BinderFreezeInfo where
  pid : Nat
  enable : Nat
  timeout_ms : Nat
  deriving DecidableEq

/-- The wait loop of `Process::ioctl_freeze` (process.rs lines 1287-1308).
Each trace element is the outcome of one condition-variable wait together
with the value of `outstanding_txns` observed after the inner lock is
reacquired (other threads may run `add_outstanding_txn` /
`drop_outstanding_txn` while the wait has the lock released).  A `Signal`
outcome clears `is_frozen` and aborts with the state carried in the error
(the source then returns `ERESTARTSYS`).  An exhausted trace behaves like
an elapsed timeout. -/
def freeze_wait_loop (jiffies : Nat) (s : ProcessInnerM)
    (trace : List (CondVarTimeoutRes × Nat)) :
    Except ProcessInnerM ProcessInnerM :=
  match jiffies, trace with
  | 0, _ => Except.ok s
  | _ + 1, [] => Except.ok s
  | _ + 1, (res, txns) :: rest =>
    if s.outstanding_txns = 0 then Except.ok s
    else
      let s := { s with outstanding_txns := txns }
      match res with
      | CondVarTimeoutRes.Signal => Except.error { s with is_frozen := false }
      | CondVarTimeoutRes.Woken remaining => freeze_wait_loop remaining s rest
      | CondVarTimeoutRes.Timeout => freeze_wait_loop 0 s rest

/-- The optional wait stage of `ioctl_freeze`: the loop runs only when a
timeout was supplied (process.rs line 1286). -/
def freeze_wait_stage (s : ProcessInnerM) (info : BinderFreezeInfo)
    (trace : List (CondVarTimeoutRes × Nat)) : Except ProcessInnerM ProcessInnerM :=
  if info.timeout_ms > 0 then freeze_wait_loop (msecs_to_jiffies info.timeout_ms) s trace
  else Except.ok s

/-- Model of `Process::ioctl_freeze` (process.rs lines 1272-1317). -/
def ioctl_freeze (s : ProcessInnerM) (info : BinderFreezeInfo)
    (trace : List (CondVarTimeoutRes × Nat)) : Except BErr Unit × ProcessInnerM :=
  if info.enable = 0 then
    (Except.ok (),
      { s with sync_recv := false, async_recv := false, is_frozen := false })
  else
    let s := { s with sync_recv := false, async_recv := false, is_frozen := true }
    match freeze_wait_stage s info trace with
    | Except.error s' => (Except.error BErr.ERESTARTSYS, s')
    | Except.ok s' =>
      if s'.txns_pending_locked then (Except.error BErr.EAGAIN, { s' with is_frozen := false })
      else (Except.ok (), s')

/- ===== Handle tables and death notifications ===== -/

/-- Modelled from the spec: a `NodeRef` (the strong/weak refcount a process
holds on a remote node; the `NodeRef` type itself lives in the external
node module).  `node_gid` is the target node's global id. -/
structure NodeRefM where
  node_gid : Nat
  strong : Nat
  weak : Nat
  deriving DecidableEq

/-- A `NodeDeath` registration: the target node's global id and the
userspace cookie it carries. -/
structure DeathM where
  node_gid : Nat
  cookie : Nat
  deriving DecidableEq

/-- Model of `NodeRefInfo` (process.rs lines 304-318): one outbound
reference to one remote node, with its optional death registration and its
handle value.  The embedded `NodeRef` is inlined as the strong/weak pair. -/
structure NodeRefInfoM where
  node_gid : Nat
  strong : Nat
  weak : Nat
  death : Option DeathM
  handle : Nat
  deriving DecidableEq

/-- The slice of a remote `Node` that the handle-table operations touch:
whether its owning process is dead, and its active death list
(`Node::add_death`). -/
structure NodeM where
  owner_is_dead : Bool
  death_list : List DeathM
  deriving DecidableEq

/-- A thread of this process as seen by death delivery: dead flag and work
queue (death items only reach thread queues through `push_work` here). -/
structure ThreadSlot where
  tid : Nat
  looperDead : Bool
  death_queue : List DeathM
  deriving DecidableEq

/-- Calls into external collaborators that carry no modelled state are
recorded as events. -/
inductive EventM where
  | brError
  | insertNodeInfo (gid handle : Nat)
  | removeNodeInfo (gid handle : Nat)
  | setCleared (cookie : Nat) (abandon : Bool)
  | removeDelivered (cookie : Nat)
  | pushWorkIfLooper (cookie : Nat)
  | notifyPollAll (sync : Bool)
  deriving DecidableEq

/-- The state acted on by the handle-table operations: the two tables of
`ProcessNodeRefs`, the owning process's `is_dead` flag, its ready-thread
queue, thread table and work list (for the delivery done by
`request_death`), the remote nodes reachable through handles (keyed by
global id), and the collaborator event log. -/
structure RefsWorld where
  by_handle : List (Nat × NodeRefInfoM)
  by_node : List (Nat × Nat)
  is_dead : Bool
  ready : List Nat
  threads : List ThreadSlot
  work : List DeathM
  nodes : List (Nat × NodeM)
  log : List EventM
  deriving DecidableEq

/-- Modelled from the spec: `NodeRef` absorption — the passed-in ref's
counts are added into the existing `NodeRefInfo`'s counts. -/
def NodeRefInfoM.absorb (i : NodeRefInfoM) (r : NodeRefM) : NodeRefInfoM :=
  { i with strong := i.strong + r.strong, weak := i.weak + r.weak }

/-- Modelled from the spec: `NodeRef::update` — adjust the strong or weak
count by one and report whether the reference is now fully zero (the
`NodeRef` type lives in the external node module). -/
def NodeRefInfoM.updateCount (i : NodeRefInfoM) (inc strong : Bool) :
    NodeRefInfoM × Bool :=
  let i :=
    if inc then
      if strong then { i with strong := i.strong + 1 } else { i with weak := i.weak + 1 }
    else
      if strong then { i with strong := i.strong - 1 } else { i with weak := i.weak - 1 }
  (i, i.strong == 0 && i.weak == 0)

/-- The largest `u32` value; `checked_add(1)` fails exactly there. -/
def U32_MAX : Nat := 4294967295

/-- The handle-search loop of `insert_or_update_handle` (process.rs lines
741-750): walk the `by_handle` keys in ascending order, bumping `target`
past collisions; `target.checked_add(1)` fails with `ENOMEM` at
`u32::MAX`. -/
def find_id_from (target : Nat) : List Nat → Except BErr Nat
  | [] => Except.ok target
  | h :: rest =>
    if target < h then Except.ok target
    else if h = target then
      if target = U32_MAX then Except.error BErr.ENOMEM
      else find_id_from (target + 1) rest
    else find_id_from target rest

/-- The handle search with its starting point (0 for the manager slot, 1
otherwise); the parameter name reproduces the source's spelling. -/
def find_id (is_mananger : Bool) (keys : List Nat) : Except BErr Nat :=
  find_id_from (if is_mananger then 0 else 1) keys

/-- Model of `Process::insert_or_update_handle` (process.rs lines 709-778).
The two reservations and the `NodeRefInfo` slot are allocated between the
two lookups; allocation is modelled as succeeding.  In this sequential
model the state cannot change between the two lookups, so the second lookup
is a literal repetition of the first.  The `.unwrap()` on the `by_handle`
entry named by `by_node` is modelled as an explicit `panicked` outcome. -/
def insert_or_update_handle (w : RefsWorld) (node_ref : NodeRefM)
    (is_mananger : Bool) : IRes Nat × RefsWorld :=
  match lookupA node_ref.node_gid w.by_node with
  | some handle =>
    match lookupA handle w.by_handle with
    | none => (IRes.panicked, w)
    | some _ =>
      (IRes.ok handle,
        { w with by_handle := updateA handle (fun i => i.absorb node_ref) w.by_handle })
  | none =>
    match lookupA node_ref.node_gid w.by_node with
    | some handle =>
      match lookupA handle w.by_handle with
      | none => (IRes.panicked, w)
      | some _ =>
        (IRes.ok handle,
          { w with by_handle := updateA handle (fun i => i.absorb node_ref) w.by_handle })
    | none =>
      match find_id is_mananger (keysA w.by_handle) with
      | Except.error e => (IRes.err e, w)
      | Except.ok target =>
        -- Recheck `is_dead` under the inner spinlock before inserting.
        if w.is_dead then (IRes.err BErr.ESRCH, w)
        else
          let info : NodeRefInfoM :=
            { node_gid := node_ref.node_gid, strong := node_ref.strong,
              weak := node_ref.weak, death := none, handle := target }
          (IRes.ok target,
            { w with
              log := w.log ++ [EventM.insertNodeInfo node_ref.node_gid target],
              by_node := insertA node_ref.node_gid target w.by_node,
              by_handle := insertA target info w.by_handle })

/-- Find a thread slot by id. -/
def findSlot (ts : List ThreadSlot) (tid : Nat) : Option ThreadSlot :=
  ts.find? fun t => t.tid == tid

/-- Update the thread slot with the given id. -/
def updSlot (ts : List ThreadSlot) (tid : Nat) (f : ThreadSlot → ThreadSlot) :
    List ThreadSlot :=
  ts.map fun t => if t.tid = tid then f t else t

/-- Modelled from the spec: the sync/async wake-up hint a `NodeDeath` work
item reports through `should_sync_wakeup` (death notifications are
asynchronous deliveries; the `NodeDeath` type lives in the external node
module). -/
def deathSyncHint : Bool := false

/-- `ProcessInner::push_work` as invoked by `request_death` on a
`NodeDeath` item, acting on the requesting process's slice of `RefsWorld`.
When the popped ready thread is dead, or the process itself is dead, the
returned item is dropped by the `Process::push_work` wrapper (process.rs
lines 612-622), so the death simply disappears. -/
def push_death_work (w : RefsWorld) (d : DeathM) : RefsWorld :=
  match w.ready with
  | tid :: rest =>
    let w := { w with ready := rest }
    match findSlot w.threads tid with
    | none => w
    | some t =>
      if t.looperDead then w
      else
        let ts := updSlot w.threads tid
          (fun th => { th with death_queue := th.death_queue ++ [d] })
        { w with threads := ts }
  | [] =>
    if w.is_dead then w
    else
      { w with
        work := w.work ++ [d],
        log := w.log ++ [EventM.notifyPollAll deathSyncHint] }

/-- Model of `Process::request_death` (process.rs lines 1074-1124).  `oom`
is whether the preallocation of the `NodeDeath` fails (in which case a
`BR_ERROR` return item is pushed to the calling thread and the allocation
error propagates).  The `none` branch of the node lookup is unreachable:
the `NodeRefInfo` holds a counted reference to its node. -/
def request_death (w : RefsWorld) (handle cookie : Nat) (oom : Bool) :
    Except BErr Unit × RefsWorld :=
  if oom then (Except.error BErr.ENOMEM, { w with log := w.log ++ [EventM.brError] })
  else
    match lookupA handle w.by_handle with
    | none => (Except.error BErr.EINVAL, w)
    | some info =>
      -- Nothing to do if there is already a death notification request.
      if info.death.isSome then (Except.ok (), w)
      else
        let death : DeathM := { node_gid := info.node_gid, cookie := cookie }
        match lookupA info.node_gid w.nodes with
        | none => (Except.ok (), w)
        | some node =>
          let bh := updateA handle (fun i => { i with death := some death }) w.by_handle
          let w := { w with by_handle := bh }
          if node.owner_is_dead then
            (Except.ok (), push_death_work w death)
          else
            let ns := updateA info.node_gid
              (fun n => { n with death_list := n.death_list ++ [death] }) w.nodes
            (Except.ok (), { w with nodes := ns })

/-- The general path of `update_ref` (process.rs lines 825-844): look up
the `NodeRefInfo`, mutate its embedded `NodeRef`; if the reference is now
fully zero, clear any attached death and remove the reference from both
tables and from the node's refs list.  An absent handle is not an error. -/
def update_ref_rest (w : RefsWorld) (handle : Nat) (inc strong : Bool) :
    Except BErr Unit × RefsWorld :=
  match lookupA handle w.by_handle with
  | none => (Except.ok (), w)
  | some info =>
    let (info', now_zero) := info.updateCount inc strong
    if now_zero then
      let w :=
        match info.death with
        | some d =>
          { w with log := w.log ++
              [EventM.setCleared d.cookie true, EventM.removeDelivered d.cookie] }
        | none => w
      (Except.ok (),
        { w with
          log := w.log ++ [EventM.removeNodeInfo info.node_gid handle],
          by_handle := removeA handle w.by_handle,
          by_node := removeA info.node_gid w.by_node })
    else
      (Except.ok (),
        { w with by_handle := updateA handle (fun _ => info') w.by_handle })

/-- Model of `Process::update_ref` (process.rs lines 807-845).  `mgr`
stands for the result of `ctx.get_manager_node(strong)`: the manager's
`NodeRef` paired with whether this process itself owns the manager node;
`none` models the `Err` case, which falls through to the general path. -/
def update_ref (mgr : Option (NodeRefM × Bool)) (w : RefsWorld) (handle : Nat)
    (inc strong : Bool) : Except BErr Unit × RefsWorld :=
  if inc && handle == 0 then
    match mgr with
    | some (node_ref, owned_by_self) =>
      if owned_by_self then (Except.error BErr.EINVAL, w)
      else
        let r := insert_or_update_handle w node_ref true
        (Except.ok (), r.2)
    | none => update_ref_rest w handle inc strong
  else update_ref_rest w handle inc strong

/-- Model of `Process::clear_death` (process.rs lines 1126-1148).
`set_cleared_result` is the value returned by the external
`NodeDeath::set_cleared(false)` (whether a completion work item must be
queued).  A cookie mismatch restores the death, so the state is unchanged
on that path. -/
def clear_death (set_cleared_result : Bool) (w : RefsWorld) (handle cookie : Nat) :
    Except BErr Unit × RefsWorld :=
  match lookupA handle w.by_handle with
  | none => (Except.error BErr.EINVAL, w)
  | some info =>
    match info.death with
    | none => (Except.error BErr.EINVAL, w)
    | some death =>
      if death.cookie ≠ cookie then (Except.error BErr.EINVAL, w)
      else
        let w :=
          { w with
            by_handle := updateA handle (fun i => { i with death := none }) w.by_handle,
            log := w.log ++ [EventM.setCleared death.cookie false] }
        if set_cleared_result then
          (Except.ok (), { w with log := w.log ++ [EventM.pushWorkIfLooper death.cookie] })
        else (Except.ok (), w)

/-- Model of `Process::deferred_release` (process.rs lines 1163-1254)
restricted to the state tracked by `RefsWorld`: step 1 sets `is_dead`
(freeze flags are not part of this record); pending work items are drained
and cancelled; then the handle-table stage (lines 1212-1227) takes
`by_handle`, unlinks every `NodeRefInfo` from its remote node and clears
any attached death.  Note that the source takes only `by_handle`;
`by_node` is left in place. -/
def deferred_release (w : RefsWorld) : RefsWorld :=
  let w := { w with is_dead := true }
  let w := { w with work := [] }
  let logs := w.by_handle.foldl
    (fun acc p =>
      acc ++ [EventM.removeNodeInfo p.2.node_gid p.1] ++
        (match p.2.death with
         | some d => [EventM.setCleared d.cookie false]
         | none => []))
    []
  { w with by_handle := [], log := w.log ++ logs }

/-- The two handle tables describe identical sets of (handle, global id)
pairs: an entry mapping a global id to handle `h` exists in `bn` iff `bh`
maps `h` to a `NodeRefInfo` whose target node has that global id. -/
def tablesAgreeL (bh : List (Nat × NodeRefInfoM)) (bn : List (Nat × Nat)) : Prop :=
  (∀ p ∈ bn, ∃ q ∈ bh, q.1 = p.2 ∧ q.2.node_gid = p.1)
  ∧ (∀ q ∈ bh, (q.2.node_gid, q.1) ∈ bn)

instance (bh : List (Nat × NodeRefInfoM)) (bn : List (Nat × Nat)) :
    Decidable (tablesAgreeL bh bn) := by
  unfold tablesAgreeL
  exact instDecidableAnd

/-- Claim C4's invariant, over a world's tables. -/
def tablesAgree (w : RefsWorld) : Prop := tablesAgreeL w.by_handle w.by_node

instance (w : RefsWorld) : Decidable (tablesAgree w) := by
  unfold tablesAgree
  infer_instance

/-- Well-formedness of the tables: keys are unique (they are red-black
tree keys in the source). -/
def wfKeys (w : RefsWorld) : Prop :=
  (keysA w.by_handle).Nodup ∧ (keysA w.by_node).Nodup

instance (w : RefsWorld) : Decidable (wfKeys w) := by
  unfold wfKeys
  exact instDecidableAnd

/- ===== Owned-node table (`get_node`) ===== -/

/-- An owned node's identity as stored in `ProcessInner::nodes`. -/
structure OwnNodeM where
  ptr : Nat
  cookie : Nat
  flags : Nat
  deriving DecidableEq

/-- The owned-node table, keyed by user binder pointer. -/
structure NodesState where
  nodes : List (Nat × OwnNodeM)
  deriving DecidableEq

/-- Model of `ProcessInner::get_existing_node` (process.rs lines 242-254). -/
def get_existing_node (s : NodesState) (ptr cookie : Nat) :
    Except BErr (Option OwnNodeM) :=
  match lookupA ptr s.nodes with
  | none => Except.ok none
  | some node =>
    if node.cookie = cookie then Except.ok (some node) else Except.error BErr.EINVAL

/-- The `NodeRef` produced for a node: one strong or one weak reference
(`NodeRef::new(node, strong_count, 1 - strong_count)`); the global id of an
owned node is modelled by its pointer key. -/
def mkNodeRef (ptr : Nat) (strong : Bool) : NodeRefM :=
  { node_gid := ptr, strong := if strong then 1 else 0, weak := if strong then 0 else 1 }

/-- Modelled from the spec: `new_node_ref_with_thread` on an existing node
can fail with `CouldNotDeliverCriticalIncrement` (represented by
`crit_needed`, a property of the node's external refcount state) unless a
`CritIncrWrapper` was preallocated. -/
def new_node_ref_with_thread (ptr : Nat) (strong : Bool) (wrapper : Bool)
    (crit_needed : Bool) : Except Unit NodeRefM :=
  if wrapper then Except.ok (mkNodeRef ptr strong)
  else if crit_needed then Except.error () else Except.ok (mkNodeRef ptr strong)

/-- Model of `Process::get_node_inner` (process.rs lines 651-684).  In this
sequential model no other thread can insert between the two lookups, so the
second lookup repeats the first.  For a freshly inserted node the refcount
increment cannot fail (the source unwraps it). -/
def get_node_inner (s : NodesState) (ptr cookie flags : Nat) (strong : Bool)
    (wrapper : Bool) (crit_needed : Bool) :
    Except BErr (Except Unit NodeRefM) × NodesState :=
  match get_existing_node s ptr cookie with
  | Except.error e => (Except.error e, s)
  | Except.ok (some _) =>
    (Except.ok (new_node_ref_with_thread ptr strong wrapper crit_needed), s)
  | Except.ok none =>
    match get_existing_node s ptr cookie with
    | Except.error e => (Except.error e, s)
    | Except.ok (some _) =>
      (Except.ok (new_node_ref_with_thread ptr strong wrapper crit_needed), s)
    | Except.ok none =>
      let node : OwnNodeM := { ptr := ptr, cookie := cookie, flags := flags }
      let s := { s with nodes := insertA ptr node s.nodes }
      (Except.ok (Except.ok (mkNodeRef ptr strong)), s)

/-- Model of `Process::get_node` (process.rs lines 686-707): at most two
passes; the second pass carries a freshly allocated `CritIncrWrapper`, so a
second `CouldNotDeliverCriticalIncrement` is unreachable
(`unreachable!()`). -/
def get_node (s : NodesState) (ptr cookie flags : Nat) (strong : Bool)
    (crit_needed : Bool) : IRes NodeRefM × NodesState :=
  match get_node_inner s ptr cookie flags strong false crit_needed with
  | (Except.error e, s') => (IRes.err e, s')
  | (Except.ok (Except.ok r), s') => (IRes.ok r, s')
  | (Except.ok (Except.error _), s') =>
    match get_node_inner s' ptr cookie flags strong true crit_needed with
    | (Except.error e, s'') => (IRes.err e, s'')
    | (Except.ok (Except.ok r), s'') => (IRes.ok r, s'')
    | (Except.ok (Except.error _), s'') => (IRes.panicked, s'')

/- ===== Concrete states for scenarios, witnesses and counterexamples ===== -/

/-- A fresh strong reference to the node with global id `g`. -/
def scenRef (g : Nat) : NodeRefM := { node_gid := g, strong := 1, weak := 0 }

/-- A live process with empty tables. -/
def emptyWorld : RefsWorld :=
  { by_handle := [], by_node := [], is_dead := false, ready := [], threads := [],
    work := [], nodes := [], log := [] }

/-- Scenario (spec section 8, scenario 3): P inserts refs to three distinct
nodes N1, N2, N3, removes handle 2, then inserts a ref to N4. -/
def scenW1 : RefsWorld := (insert_or_update_handle emptyWorld (scenRef 101) false).2

def scenW2 : RefsWorld := (insert_or_update_handle scenW1 (scenRef 102) false).2

def scenW3 : RefsWorld := (insert_or_update_handle scenW2 (scenRef 103) false).2

def scenW4 : RefsWorld := (update_ref none scenW3 2 false true).2

/-- A world where this process holds handle 7 on node 5 whose owner is
dead, and where one live thread (tid 9) is ready for work. -/
def cxDeadOwnerWorld : RefsWorld :=
  { by_handle := [(7, { node_gid := 5, strong := 1, weak := 0, death := none, handle := 7 })],
    by_node := [(5, 7)], is_dead := false, ready := [9],
    threads := [{ tid := 9, looperDead := false, death_queue := [] }],
    work := [], nodes := [(5, { owner_is_dead := true, death_list := [] })], log := [] }

/-- A world with one handle, used to exhibit the stale `by_node` left by
`deferred_release`. -/
def cxReleaseWorld : RefsWorld :=
  { by_handle := [(1, { node_gid := 42, strong := 1, weak := 0, death := none, handle := 1 })],
    by_node := [(42, 1)], is_dead := false, ready := [], threads := [], work := [],
    nodes := [], log := [] }

/-- The initial `ProcessInner` state (`ProcessInner::new`, process.rs lines
102-122, restricted to the modelled fields). -/
def initInner : ProcessInnerM :=
  { is_manager := false, is_dead := false, threads := [], ready_threads := [], work := [],
    requested_thread_count := 0, max_threads := 0, started_thread_count := 0,
    outstanding_txns := 0, is_frozen := false, sync_recv := false, async_recv := false }

/-- The state reached by: set_max_threads 1; needs_thread; register_thread;
set_max_threads 0. -/
def cxMaxThreadsState : ProcessInnerM :=
  ((((initInner.set_max_threads 1).needs_thread).2.register_thread).2).set_max_threads 0

/-- An owned-node table holding one node at pointer 4096 with cookie 10. -/
def cxNodesState : NodesState :=
  { nodes := [(4096, { ptr := 4096, cookie := 10, flags := 0 })] }

/-- The inductive bound actually maintained by the thread-pool counters:
started threads plus still-pending spawn requests never exceed the pool
limit. -/
def threadQuota (s : ProcessInnerM) : Prop :=
  s.started_thread_count + s.requested_thread_count ≤ s.max_threads

instance (s : ProcessInnerM) : Decidable (threadQuota s) := by
  unfold threadQuota
  infer_instance

/- ===================== Theorems ===================== -/

/- Association-list facts used throughout. -/

theorem lookupA_mem {α : Type} {k : Nat} {v : α} {l : List (Nat × α)}
    (h : lookupA k l = some v) : (k, v) ∈ l := by
  induction l with
  | nil => simp [lookupA] at h
  | cons p rest ih =>
    obtain ⟨k', v'⟩ := p
    by_cases hk : k = k'
    · subst hk
      simp only [lookupA, if_true, eq_self_iff_true, Option.some.injEq] at h
      subst h
      exact List.mem_cons_self _ _
    · simp only [lookupA, if_neg hk] at h
      exact List.mem_cons_of_mem _ (ih h)

theorem mem_lookupA {α : Type} {k : Nat} {v : α} {l : List (Nat × α)}
    (hnd : (keysA l).Nodup) (h : (k, v) ∈ l) : lookupA k l = some v := by
  induction l with
  | nil => simp at h
  | cons p rest ih =>
    obtain ⟨k', v'⟩ := p
    simp only [keysA, List.map_cons, List.nodup_cons] at hnd
    rcases List.mem_cons.mp h with heq | hmem
    · cases heq
      simp [lookupA]
    · by_cases hk : k = k'
      · subst hk
        exact absurd (List.mem_map_of_mem Prod.fst hmem) hnd.1
      · simp only [lookupA, if_neg hk]
        exact ih hnd.2 hmem

theorem mem_insertA {α : Type} {k : Nat} {v : α} {p : Nat × α} :
    ∀ {l : List (Nat × α)}, p ∈ insertA k v l ↔ p = (k, v) ∨ p ∈ l := by
  intro l
  induction l with
  | nil => simp [insertA]
  | cons q rest ih =>
    obtain ⟨k', v'⟩ := q
    by_cases hk : k < k'
    · simp [insertA, hk]
    · simp only [insertA, if_neg hk, List.mem_cons, ih]
      tauto

theorem mem_removeA {α : Type} {k : Nat} {p : Nat × α} {l : List (Nat × α)} :
    p ∈ removeA k l ↔ p ∈ l ∧ p.1 ≠ k := by
  simp [removeA, List.mem_filter]

theorem lookupA_updateA {α : Type} (k : Nat) (f : α → α) (l : List (Nat × α)) :
    lookupA k (updateA k f l) = (lookupA k l).map f := by
  induction l with
  | nil => simp [lookupA, updateA]
  | cons p rest ih =>
    obtain ⟨k', v'⟩ := p
    simp only [updateA, List.map_cons] at *
    by_cases hk : k' = k
    · subst hk
      have hhead :
          (if ((k', v') : Nat × α).1 = k' then (((k', v') : Nat × α).1, f (k', v').2)
            else (k', v')) = (k', f v') := by
        simp
      rw [hhead]
      simp [lookupA]
    · have hhead :
          (if ((k', v') : Nat × α).1 = k then (((k', v') : Nat × α).1, f (k', v').2)
            else (k', v')) = (k', v') := by
        simp [hk]
      rw [hhead]
      simp only [lookupA]
      rw [if_neg (Ne.symm hk), if_neg (Ne.symm hk)]
      exact ih

/- Characterization of the handle-search loop. -/

theorem find_id_from_ok {keys : List Nat} :
    ∀ {target t : Nat}, keys.Pairwise (· < ·) → find_id_from target keys = Except.ok t →
      target ≤ t ∧ t ∉ keys ∧ (∀ u, target ≤ u → u < t → u ∈ keys)
        ∧ (target ≤ U32_MAX → t ≤ U32_MAX) := by
  induction keys with
  | nil =>
    intro target t _ h
    simp only [find_id_from, Except.ok.injEq] at h
    subst h
    exact ⟨le_refl _, by simp, fun u hu1 hu2 => absurd hu2 (by omega), fun hb => hb⟩
  | cons k rest ih =>
    intro target t hp h
    rw [find_id_from] at h
    rw [List.pairwise_cons] at hp
    by_cases h1 : target < k
    · rw [if_pos h1] at h
      simp only [Except.ok.injEq] at h
      subst h
      refine ⟨le_refl _, ?_, fun u hu1 hu2 => absurd hu2 (by omega), fun hb => hb⟩
      intro hmem
      rcases List.mem_cons.mp hmem with he | he
      · omega
      · have := hp.1 _ he
        omega
    · rw [if_neg h1] at h
      by_cases h2 : k = target
      · rw [if_pos h2] at h
        by_cases h3 : target = U32_MAX
        · rw [if_pos h3] at h
          exact absurd h (by simp)
        · rw [if_neg h3] at h
          obtain ⟨ha, hb, hc, hd⟩ := ih hp.2 h
          refine ⟨by omega, ?_, ?_, fun hbd => hd (by omega)⟩
          · intro hmem
            rcases List.mem_cons.mp hmem with he | he
            · omega
            · exact hb he
          · intro u hu1 hu2
            by_cases hu : u = target
            · have huk : u = k := by omega
              rw [huk]
              exact List.mem_cons_self _ _
            · exact List.mem_cons_of_mem _ (hc u (by omega) hu2)
      · have hlt : k < target := by omega
        rw [if_neg h2] at h
        obtain ⟨ha, hb, hc, hd⟩ := ih hp.2 h
        refine ⟨ha, ?_, fun u hu1 hu2 => List.mem_cons_of_mem _ (hc u hu1 hu2), hd⟩
        intro hmem
        rcases List.mem_cons.mp hmem with he | he
        · omega
        · exact hb he

theorem find_id_from_error {keys : List Nat} :
    ∀ {target : Nat} {e : BErr}, keys.Pairwise (· < ·) →
      find_id_from target keys = Except.error e →
      e = BErr.ENOMEM ∧ ∀ u, target ≤ u → u ≤ U32_MAX → u ∈ keys := by
  induction keys with
  | nil =>
    intro target e _ h
    simp [find_id_from] at h
  | cons k rest ih =>
    intro target e hp h
    rw [find_id_from] at h
    rw [List.pairwise_cons] at hp
    by_cases h1 : target < k
    · rw [if_pos h1] at h
      exact absurd h (by simp)
    · rw [if_neg h1] at h
      by_cases h2 : k = target
      · rw [if_pos h2] at h
        by_cases h3 : target = U32_MAX
        · rw [if_pos h3] at h
          simp only [Except.error.injEq] at h
          refine ⟨h.symm, ?_⟩
          intro u hu1 hu2
          have huk : u = k := by
            unfold U32_MAX at h3 hu2
            omega
          rw [huk]
          exact List.mem_cons_self _ _
        · rw [if_neg h3] at h
          obtain ⟨he, hall⟩ := ih hp.2 h
          refine ⟨he, ?_⟩
          intro u hu1 hu2
          by_cases hu : u = target
          · have huk : u = k := by omega
            rw [huk]
            exact List.mem_cons_self _ _
          · exact List.mem_cons_of_mem _ (hall u (by omega) hu2)
      · have hlt : k < target := by omega
        rw [if_neg h2] at h
        obtain ⟨he, hall⟩ := ih hp.2 h
        exact ⟨he, fun u hu1 hu2 => List.mem_cons_of_mem _ (hall u hu1 hu2)⟩

/-- Claim C2: when `insert_or_update_handle` inserts a reference to a node
that has no existing handle, it assigns the smallest handle value not
currently present in `by_handle` that is at least 0 when the manager slot
is requested and at least 1 otherwise, failing with `ENOMEM` on u32
overflow; starting from an empty table, inserting refs to three distinct
nodes yields handles 1, 2, 3, and after removing handle 2 the next insert
of a ref to a new node yields handle 2. -/
theorem insert_or_update_handle_smallest_free :
    (∀ (mgr : Bool) (keys : List Nat), keys.Pairwise (· < ·) →
      (∀ t, find_id mgr keys = Except.ok t →
        (if mgr then 0 else 1) ≤ t ∧ t ∉ keys
          ∧ (∀ u, (if mgr then 0 else 1) ≤ u → u < t → u ∈ keys) ∧ t ≤ U32_MAX)
      ∧ (find_id mgr keys = Except.error BErr.ENOMEM ↔
          ∀ u, (if mgr then 0 else 1) ≤ u → u ≤ U32_MAX → u ∈ keys))
    ∧ (∀ (w : RefsWorld) (node_ref : NodeRefM) (mgr : Bool) (h : Nat) (w' : RefsWorld),
        lookupA node_ref.node_gid w.by_node = none →
        insert_or_update_handle w node_ref mgr = (IRes.ok h, w') →
        find_id mgr (keysA w.by_handle) = Except.ok h)
    ∧ ((insert_or_update_handle emptyWorld (scenRef 101) false).1 = IRes.ok 1
        ∧ (insert_or_update_handle scenW1 (scenRef 102) false).1 = IRes.ok 2
        ∧ (insert_or_update_handle scenW2 (scenRef 103) false).1 = IRes.ok 3
        ∧ (update_ref none scenW3 2 false true).1 = Except.ok ()
        ∧ keysA scenW4.by_handle = [1, 3]
        ∧ (insert_or_update_handle scenW4 (scenRef 104) false).1 = IRes.ok 2) := by
  have hstart : ∀ mgr : Bool, (if mgr then 0 else 1) ≤ U32_MAX := by
    intro mgr
    unfold U32_MAX
    split <;> omega
  refine ⟨?_, ?_, ⟨rfl, rfl, rfl, rfl, rfl, rfl⟩⟩
  · intro mgr keys hp
    constructor
    · intro t ht
      simp only [find_id] at ht
      obtain ⟨h1, h2, h3, h4⟩ := find_id_from_ok hp ht
      exact ⟨h1, h2, h3, h4 (hstart mgr)⟩
    · constructor
      · intro herr
        simp only [find_id] at herr
        exact (find_id_from_error hp herr).2
      · intro hall
        cases hres : find_id mgr keys with
        | ok t =>
          exfalso
          simp only [find_id] at hres
          obtain ⟨h1, h2, h3, h4⟩ := find_id_from_ok hp hres
          exact h2 (hall t h1 (h4 (hstart mgr)))
        | error e =>
          have hres' := hres
          simp only [find_id] at hres'
          rw [(find_id_from_error hp hres').1]
  · intro w nref mgr hh w' hlook hins
    simp only [insert_or_update_handle, hlook] at hins
    cases hfid : find_id mgr (keysA w.by_handle) with
    | error e =>
      rw [hfid] at hins
      simp at hins
    | ok target =>
      rw [hfid] at hins
      by_cases hd : w.is_dead
      · simp [hd] at hins
      · simp only [Bool.not_eq_true] at hd
        simp [hd] at hins
        rw [hins.1]

/-- Witness for claim C2's theorem: with non-manager start and occupied
handles 1 and 3, the search returns 2, which is free, above the start, and
every smaller candidate is occupied. -/
theorem insert_or_update_handle_smallest_free_witness :
    (if false then 0 else 1) ≤ 2 ∧ 2 ∉ [1, 3]
      ∧ (∀ u, (if false then 0 else 1) ≤ u → u < 2 → u ∈ [1, 3]) ∧ 2 ≤ U32_MAX := by
  exact (insert_or_update_handle_smallest_free.1 false [1, 3] (by decide)).1 2 rfl

/-- Claim C9: `drop_outstanding_txn` decrements `outstanding_txns` by
exactly one when nonzero, and reports the condvar notification exactly when
the process is frozen and the decrement reached zero; at zero nothing is
mutated. -/
theorem drop_outstanding_txn_spec (s : ProcessInnerM) :
    (s.outstanding_txns = 0 → drop_outstanding_txn s = (s, false))
    ∧ (∀ n, s.outstanding_txns = n + 1 →
        drop_outstanding_txn s = ({ s with outstanding_txns := n }, s.is_frozen && (n == 0))) := by
  constructor
  · intro h
    simp [drop_outstanding_txn, h]
  · intro n h
    simp [drop_outstanding_txn, h]

/-- Witness for claim C9's theorem: a frozen process with one outstanding
transaction reaches zero and notifies. -/
theorem drop_outstanding_txn_spec_witness :
    drop_outstanding_txn { initInner with outstanding_txns := 1, is_frozen := true }
      = ({ initInner with outstanding_txns := 0, is_frozen := true }, true) := by
  have h := (drop_outstanding_txn_spec
    { initInner with outstanding_txns := 1, is_frozen := true }).2 0 rfl
  simpa using h

/-- Counterexample to claim C5: after `set_max_threads 1; needs_thread;
register_thread; set_max_threads 0`, the started count (1) exceeds
`max_threads` (0) even though `max_threads` has been set, because
`set_max_threads` writes the bound unconditionally. -/
theorem max_threads_counterexample :
    ¬ cxMaxThreadsState.started_thread_count ≤ cxMaxThreadsState.max_threads := by
  decide

/-- Claim C5 (amended): the counters maintain `started_thread_count +
requested_thread_count ≤ max_threads` (hence `started_thread_count ≤
max_threads`) across `register_thread` and `needs_thread` in any
interleaving, and `set_max_threads m` establishes it exactly when `m` is at
least the current started-plus-requested count; a smaller `m` violates the
bound. -/
theorem thread_counts_amended :
    (∀ s : ProcessInnerM, threadQuota s →
      threadQuota (s.register_thread).2 ∧ threadQuota (s.needs_thread).2)
    ∧ (∀ (s : ProcessInnerM) (m : Nat),
        s.started_thread_count + s.requested_thread_count ≤ m →
        threadQuota (s.set_max_threads m))
    ∧ (∀ s : ProcessInnerM, threadQuota s → s.started_thread_count ≤ s.max_threads) := by
  refine ⟨?_, ?_, ?_⟩
  · intro s hq
    unfold threadQuota at hq
    constructor
    · by_cases h0 : s.requested_thread_count = 0
      · simpa [ProcessInnerM.register_thread, h0, threadQuota] using hq
      · simp only [ProcessInnerM.register_thread, if_neg h0, threadQuota]
        omega
    · unfold ProcessInnerM.needs_thread
      dsimp only
      split
      · next hret =>
        simp only [Bool.and_eq_true, decide_eq_true_eq] at hret
        unfold threadQuota
        dsimp only
        omega
      · exact hq
  · intro s m hm
    simpa [ProcessInnerM.set_max_threads, threadQuota] using hm
  · intro s hq
    unfold threadQuota at hq
    omega

/-- Witness for claim C5's amended theorem, at a state with one spawn
request outstanding and room for two threads. -/
theorem thread_counts_amended_witness :
    threadQuota ((initInner.set_max_threads 2).needs_thread).2
      ∧ threadQuota (((initInner.set_max_threads 2).needs_thread).2.register_thread).2
      ∧ ((initInner.set_max_threads 2).needs_thread).2.started_thread_count
          ≤ ((initInner.set_max_threads 2).needs_thread).2.max_threads := by
  refine ⟨?_, ?_, ?_⟩
  · exact (thread_counts_amended.1 (initInner.set_max_threads 2) (by decide)).2
  · exact (thread_counts_amended.1 ((initInner.set_max_threads 2).needs_thread).2 (by decide)).1
  · exact thread_counts_amended.2.2 ((initInner.set_max_threads 2).needs_thread).2 (by decide)

/-- Claim C6: if a node with user pointer `ptr` already exists with cookie
`c`, then `get_node` with any different cookie fails with `EINVAL` and
leaves the owned-node table unchanged (the node count is unchanged). -/
theorem get_node_cookie_mismatch (s : NodesState) (ptr c c' flags : Nat)
    (strong crit : Bool) (node : OwnNodeM)
    (hmem : lookupA ptr s.nodes = some node) (hc : node.cookie = c) (hne : c' ≠ c) :
    get_node s ptr c' flags strong crit = (IRes.err BErr.EINVAL, s)
    ∧ (get_node s ptr c' flags strong crit).2.nodes.length = s.nodes.length := by
  have hcc : ¬ node.cookie = c' := by
    rw [hc]
    exact fun h => hne h.symm
  have hex : get_existing_node s ptr c' = Except.error BErr.EINVAL := by
    simp [get_existing_node, hmem, hcc]
  have hinner : get_node_inner s ptr c' flags strong false crit
      = (Except.error BErr.EINVAL, s) := by
    simp [get_node_inner, hex]
  have hmain : get_node s ptr c' flags strong crit = (IRes.err BErr.EINVAL, s) := by
    simp [get_node, hinner]
  exact ⟨hmain, by rw [hmain]⟩

/-- Witness for claim C6's theorem: node at pointer 4096 has cookie 10; a
lookup with cookie 11 fails with `EINVAL` and the table is unchanged. -/
theorem get_node_cookie_mismatch_witness :
    get_node cxNodesState 4096 11 0 true false = (IRes.err BErr.EINVAL, cxNodesState) := by
  exact (get_node_cookie_mismatch cxNodesState 4096 10 11 0 true false
    { ptr := 4096, cookie := 10, flags := 0 } rfl rfl (by decide)).1

/-- Claim C1: for every work item delivered via `ProcessInner::push_work`:
if `ready_threads` is non-empty, one thread is popped, the item is notified
of its selected thread and handed to that thread's queue, returning ok on
success and an error carrying the item back if the thread is dead;
otherwise, if `is_dead` is set, an error carrying the item back is
returned; otherwise the item is appended to the process work queue, every
thread in the thread table is asked to signal its poll waiters with the
item's sync hint, and ok is returned. -/
theorem push_work_dispatch (s : ProcessInnerM) (w : WorkItemM) :
    (∀ tid rest t, s.ready_threads = tid :: rest → findThread s.threads tid = some t →
      (t.looperDead = true →
        s.push_work w = (Except.error (BErr.dead, { w with selected := some tid }),
          { s with ready_threads := rest }))
      ∧ (t.looperDead = false →
        s.push_work w = (Except.ok (),
          { s with
            ready_threads := rest,
            threads := (updThread s.threads tid
              (fun th => { th with queue := th.queue ++ [{ w with selected := some tid }] })) })))
    ∧ (s.ready_threads = [] → s.is_dead = true →
      s.push_work w = (Except.error (BErr.dead, w), s))
    ∧ (s.ready_threads = [] → s.is_dead = false →
      s.push_work w = (Except.ok (),
        { s with
          work := s.work ++ [w],
          threads := (s.threads.map
            (fun t => { t with pollNotified := t.pollNotified ++ [w.sync] })) })) := by
  refine ⟨?_, ?_, ?_⟩
  · intro tid rest t hready hfind
    constructor
    · intro hdead
      simp [ProcessInnerM.push_work, hready, hfind, hdead]
    · intro halive
      simp [ProcessInnerM.push_work, hready, hfind, halive]
  · intro hready hdead
    simp [ProcessInnerM.push_work, hready, hdead]
  · intro hready halive
    simp [ProcessInnerM.push_work, hready, halive]

/-- Witness for claim C1's theorem: a live process with no ready threads
and one polling thread appends the item to its work queue and signals the
poller with the sync hint. -/
theorem push_work_dispatch_witness :
    ProcessInnerM.push_work
        { initInner with threads :=
            [{ tid := 3, looperDead := false, hasTxn := false, queue := [], pollNotified := [] }] }
        { sync := true, selected := none }
      = (Except.ok (),
        { initInner with
          threads :=
            [{ tid := 3, looperDead := false, hasTxn := false, queue := [], pollNotified := [true] }],
          work := [{ sync := true, selected := none }] }) := by
  have h := (push_work_dispatch
    { initInner with threads :=
        [{ tid := 3, looperDead := false, hasTxn := false, queue := [], pollNotified := [] }] }
    { sync := true, selected := none }).2.2 rfl rfl
  simpa using h

/- Facts about the freeze wait loop used by claim C3. -/

theorem freeze_wait_loop_ok_frozen :
    ∀ (trace : List (CondVarTimeoutRes × Nat)) (j : Nat) (s s' : ProcessInnerM),
      freeze_wait_loop j s trace = Except.ok s' → s'.is_frozen = s.is_frozen := by
  intro trace
  induction trace with
  | nil =>
    intro j s s' h
    match j with
    | 0 =>
      simp only [freeze_wait_loop, Except.ok.injEq] at h
      rw [← h]
    | j + 1 =>
      simp only [freeze_wait_loop, Except.ok.injEq] at h
      rw [← h]
  | cons p rest ih =>
    intro j s s' h
    match j with
    | 0 =>
      simp only [freeze_wait_loop, Except.ok.injEq] at h
      rw [← h]
    | j + 1 =>
      obtain ⟨res, txns⟩ := p
      by_cases h0 : s.outstanding_txns = 0
      · simp only [freeze_wait_loop, if_pos h0, Except.ok.injEq] at h
        rw [← h]
      · cases res with
        | Signal => simp [freeze_wait_loop, h0] at h
        | Woken remaining =>
          simp only [freeze_wait_loop, h0] at h
          simpa using ih remaining _ s' h
        | Timeout =>
          simp [freeze_wait_loop, h0] at h
          rw [← h]

theorem freeze_wait_loop_error_frozen :
    ∀ (trace : List (CondVarTimeoutRes × Nat)) (j : Nat) (s s' : ProcessInnerM),
      freeze_wait_loop j s trace = Except.error s' → s'.is_frozen = false := by
  intro trace
  induction trace with
  | nil =>
    intro j s s' h
    match j with
    | 0 => simp [freeze_wait_loop] at h
    | j + 1 => simp [freeze_wait_loop] at h
  | cons p rest ih =>
    intro j s s' h
    match j with
    | 0 => simp [freeze_wait_loop] at h
    | j + 1 =>
      obtain ⟨res, txns⟩ := p
      by_cases h0 : s.outstanding_txns = 0
      · simp [freeze_wait_loop, if_pos h0] at h
      · cases res with
        | Signal =>
          simp [freeze_wait_loop, h0] at h
          rw [← h]
        | Woken remaining =>
          simp only [freeze_wait_loop, h0] at h
          exact ih remaining _ s' h
        | Timeout => simp [freeze_wait_loop, h0] at h

/-- Claim C3: `ioctl_freeze` with enable 0 clears `is_frozen`, `sync_recv`
and `async_recv` and returns ok; with nonzero enable it sets `is_frozen`
and clears the receive flags, then: if the condvar wait is interrupted by a
signal it clears `is_frozen` and returns `ERESTARTSYS`; if after the wait
loop `txns_pending_locked` holds it clears `is_frozen` and returns
`EAGAIN`; otherwise it returns ok with `is_frozen` still true. -/
theorem ioctl_freeze_cases (s : ProcessInnerM) (info : BinderFreezeInfo)
    (trace : List (CondVarTimeoutRes × Nat)) :
    (info.enable = 0 → ioctl_freeze s info trace =
      (Except.ok (), { s with sync_recv := false, async_recv := false, is_frozen := false }))
    ∧ (info.enable ≠ 0 →
      (∀ s', freeze_wait_stage
            { s with sync_recv := false, async_recv := false, is_frozen := true } info trace
          = Except.error s' →
        ioctl_freeze s info trace = (Except.error BErr.ERESTARTSYS, s')
          ∧ s'.is_frozen = false)
      ∧ (∀ s', freeze_wait_stage
            { s with sync_recv := false, async_recv := false, is_frozen := true } info trace
          = Except.ok s' →
        (s'.txns_pending_locked = true →
          ioctl_freeze s info trace
            = (Except.error BErr.EAGAIN, { s' with is_frozen := false }))
        ∧ (s'.txns_pending_locked = false →
          ioctl_freeze s info trace = (Except.ok (), s') ∧ s'.is_frozen = true))) := by
  constructor
  · intro h0
    simp [ioctl_freeze, h0]
  · intro hne
    constructor
    · intro s' herr
      constructor
      · simp [ioctl_freeze, hne, herr]
      · unfold freeze_wait_stage at herr
        by_cases ht : info.timeout_ms > 0
        · rw [if_pos ht] at herr
          exact freeze_wait_loop_error_frozen _ _ _ _ herr
        · rw [if_neg ht] at herr
          simp at herr
    · intro s' hok
      constructor
      · intro hpend
        simp [ioctl_freeze, hne, hok, hpend]
      · intro hpend
        constructor
        · simp [ioctl_freeze, hne, hok, hpend]
        · have hfr : s'.is_frozen =
              ({ s with sync_recv := false, async_recv := false, is_frozen := true } : ProcessInnerM).is_frozen := by
            unfold freeze_wait_stage at hok
            by_cases ht : info.timeout_ms > 0
            · rw [if_pos ht] at hok
              exact freeze_wait_loop_ok_frozen _ _ _ _ hok
            · rw [if_neg ht] at hok
              simp only [Except.ok.injEq] at hok
              rw [← hok]
          simpa using hfr

/-- Witness for claim C3's theorem: freezing a quiescent process (no
outstanding transactions, no timeout) succeeds with `is_frozen` set. -/
theorem ioctl_freeze_cases_witness :
    ioctl_freeze initInner { pid := 1, enable := 1, timeout_ms := 0 } []
      = (Except.ok (), { initInner with is_frozen := true }) := by
  have h := ((ioctl_freeze_cases initInner { pid := 1, enable := 1, timeout_ms := 0 } []).2
      (by decide)).2 { initInner with is_frozen := true } rfl
  exact (h.2 rfl).1

/- Helper facts for the handle-table operations. -/

theorem entry_unique {α : Type} {l : List (Nat × α)} (hnd : (keysA l).Nodup)
    {k : Nat} {v v' : α} (h1 : (k, v) ∈ l) (h2 : (k, v') ∈ l) : v = v' := by
  have e1 := mem_lookupA hnd h1
  have e2 := mem_lookupA hnd h2
  rw [e1] at e2
  exact Option.some.inj e2

theorem absorb_gid (i : NodeRefInfoM) (r : NodeRefM) :
    (i.absorb r).node_gid = i.node_gid := rfl

theorem updateCount_gid (i : NodeRefInfoM) (inc strong : Bool) :
    (i.updateCount inc strong).1.node_gid = i.node_gid := by
  unfold NodeRefInfoM.updateCount
  cases inc <;> cases strong <;> rfl

theorem tablesAgreeL_updateA {bh : List (Nat × NodeRefInfoM)} {bn : List (Nat × Nat)}
    {k : Nat} {f : NodeRefInfoM → NodeRefInfoM}
    (hf : ∀ v, (k, v) ∈ bh → (f v).node_gid = v.node_gid)
    (hag : tablesAgreeL bh bn) : tablesAgreeL (updateA k f bh) bn := by
  obtain ⟨h1, h2⟩ := hag
  constructor
  · intro p hp
    obtain ⟨q, hq, hq1, hq2⟩ := h1 p hp
    obtain ⟨a, b⟩ := q
    by_cases hk : a = k
    · refine ⟨(a, f b), ?_, hq1, ?_⟩
      · have hmem := List.mem_map_of_mem
          (fun r : Nat × NodeRefInfoM => if r.1 = k then (r.1, f r.2) else r) hq
        simpa [updateA, hk] using hmem
      · have hgid := hf b (by rw [← hk]; exact hq)
        simp only at hq2
        simpa [hgid] using hq2
    · refine ⟨(a, b), ?_, hq1, hq2⟩
      have hmem := List.mem_map_of_mem
        (fun r : Nat × NodeRefInfoM => if r.1 = k then (r.1, f r.2) else r) hq
      simpa [updateA, hk] using hmem
  · intro q hq
    rw [updateA] at hq
    obtain ⟨r, hr, hrq⟩ := List.mem_map.mp hq
    obtain ⟨a, b⟩ := r
    by_cases hk : a = k
    · have hval : (if ((a, b) : Nat × NodeRefInfoM).1 = k then (((a, b) : Nat × NodeRefInfoM).1, f (a, b).2)
          else (a, b)) = (a, f b) := by
        simp [hk]
      rw [hval] at hrq
      subst hrq
      have hgid := hf b (by rw [← hk]; exact hr)
      have hbn := h2 (a, b) hr
      simpa [hgid] using hbn
    · have hval : (if ((a, b) : Nat × NodeRefInfoM).1 = k then (((a, b) : Nat × NodeRefInfoM).1, f (a, b).2)
          else (a, b)) = (a, b) := by
        simp [hk]
      rw [hval] at hrq
      subst hrq
      exact h2 (a, b) hr

theorem push_death_work_state (w : RefsWorld) (d : DeathM) :
    (push_death_work w d).by_handle = w.by_handle
    ∧ (push_death_work w d).by_node = w.by_node
    ∧ (push_death_work w d).nodes = w.nodes
    ∧ (push_death_work w d).is_dead = w.is_dead := by
  unfold push_death_work
  cases hr : w.ready with
  | nil => by_cases hd : w.is_dead = true <;> simp [hd]
  | cons tid rest =>
    cases hf : findSlot w.threads tid with
    | none => simp [hf]
    | some t => by_cases hld : t.looperDead = true <;> simp [hf, hld]

/-- The effect of `request_death` on a handle with no death installed yet:
it returns ok and installs the death in the `NodeRefInfo`. -/
theorem request_death_install (w : RefsWorld) (handle cookie : Nat)
    (info : NodeRefInfoM) (node : NodeM)
    (hi : lookupA handle w.by_handle = some info) (hd : info.death = none)
    (hn : lookupA info.node_gid w.nodes = some node) :
    (request_death w handle cookie false).1 = Except.ok ()
    ∧ (request_death w handle cookie false).2.by_handle
      = updateA handle
          (fun i => { i with death := some { node_gid := info.node_gid, cookie := cookie } })
          w.by_handle
    ∧ (request_death w handle cookie false).2.by_node = w.by_node := by
  by_cases hdead : node.owner_is_dead = true
  · simp [request_death, hi, hd, hn, hdead, (push_death_work_state _ _).1,
      (push_death_work_state _ _).2.1]
  · simp [request_death, hi, hd, hn, hdead]

/-- The second `request_death` on the same handle is a no-op returning ok,
whatever the supplied cookie. -/
theorem request_death_existing (w : RefsWorld) (handle cookie : Nat)
    (info : NodeRefInfoM) (d : DeathM)
    (hi : lookupA handle w.by_handle = some info) (hd : info.death = some d) :
    request_death w handle cookie false = (Except.ok (), w) := by
  simp [request_death, hi, hd]

/-- A `request_death` on an absent handle fails with `EINVAL`. -/
theorem request_death_missing (w : RefsWorld) (handle cookie : Nat)
    (hi : lookupA handle w.by_handle = none) :
    request_death w handle cookie false = (Except.error BErr.EINVAL, w) := by
  simp [request_death, hi]

theorem tablesAgreeL_insert {bh : List (Nat × NodeRefInfoM)} {bn : List (Nat × Nat)}
    (gid target : Nat) (info : NodeRefInfoM) (hgid : info.node_gid = gid)
    (hag : tablesAgreeL bh bn) :
    tablesAgreeL (insertA target info bh) (insertA gid target bn) := by
  obtain ⟨h1, h2⟩ := hag
  constructor
  · intro p hp
    rcases mem_insertA.mp hp with hnew | hold
    · subst hnew
      exact ⟨(target, info), mem_insertA.mpr (Or.inl rfl), rfl, hgid⟩
    · obtain ⟨q, hq, hq1, hq2⟩ := h1 p hold
      exact ⟨q, mem_insertA.mpr (Or.inr hq), hq1, hq2⟩
  · intro q hq
    rcases mem_insertA.mp hq with hnew | hold
    · subst hnew
      exact mem_insertA.mpr (Or.inl (by simp [hgid]))
    · exact mem_insertA.mpr (Or.inr (h2 q hold))

theorem tablesAgreeL_removeA {w : RefsWorld} {handle : Nat} {info : NodeRefInfoM}
    (hwf : wfKeys w) (hag : tablesAgree w)
    (hlk : lookupA handle w.by_handle = some info) :
    tablesAgreeL (removeA handle w.by_handle) (removeA info.node_gid w.by_node) := by
  obtain ⟨h1, h2⟩ := hag
  have hhm : (handle, info) ∈ w.by_handle := lookupA_mem hlk
  have hbn0 : (info.node_gid, handle) ∈ w.by_node := h2 (handle, info) hhm
  constructor
  · intro p hp
    obtain ⟨hpm, hpne⟩ := mem_removeA.mp hp
    obtain ⟨q, hq, hq1, hq2⟩ := h1 p hpm
    refine ⟨q, mem_removeA.mpr ⟨hq, ?_⟩, hq1, hq2⟩
    intro hq1k
    have hqm : (handle, q.2) ∈ w.by_handle := by
      rw [← hq1k]
      exact hq
    have hq2i : q.2 = info := entry_unique hwf.1 hqm hhm
    apply hpne
    rw [← hq2, hq2i]
  · intro q hq
    obtain ⟨hqm, hqne⟩ := mem_removeA.mp hq
    have hbn : (q.2.node_gid, q.1) ∈ w.by_node := h2 q hqm
    refine mem_removeA.mpr ⟨hbn, ?_⟩
    intro hgid
    have h1' : (info.node_gid, q.1) ∈ w.by_node := by
      rw [← hgid]
      exact hbn
    have hq1h : q.1 = handle := entry_unique hwf.2 h1' hbn0
    exact hqne hq1h

/-- Preservation of the table correspondence by `insert_or_update_handle`,
together with the absence of the `.unwrap()` panic. -/
theorem insert_preserves_agree (w : RefsWorld) (nref : NodeRefM) (mgr : Bool)
    (hwf : wfKeys w) (hag : tablesAgree w) :
    tablesAgree (insert_or_update_handle w nref mgr).2
    ∧ (insert_or_update_handle w nref mgr).1 ≠ IRes.panicked := by
  cases hlook : lookupA nref.node_gid w.by_node with
  | some handle =>
    have hpmem : (nref.node_gid, handle) ∈ w.by_node := lookupA_mem hlook
    obtain ⟨q, hq, hq1, hq2⟩ := hag.1 _ hpmem
    dsimp only at hq1 hq2
    have hlk2 : lookupA handle w.by_handle = some q.2 := by
      apply mem_lookupA hwf.1
      rw [← hq1]
      exact hq
    have hred : insert_or_update_handle w nref mgr =
        (IRes.ok handle,
          { w with by_handle := updateA handle (fun i => i.absorb nref) w.by_handle }) := by
      simp [insert_or_update_handle, hlook, hlk2]
    rw [hred]
    exact ⟨tablesAgreeL_updateA (fun v _ => absorb_gid v nref) hag,
      fun hcon => IRes.noConfusion hcon⟩
  | none =>
    cases hfid : find_id mgr (keysA w.by_handle) with
    | error e =>
      have hred : insert_or_update_handle w nref mgr = (IRes.err e, w) := by
        simp [insert_or_update_handle, hlook, hfid]
      rw [hred]
      exact ⟨hag, fun hcon => IRes.noConfusion hcon⟩
    | ok target =>
      by_cases hd : w.is_dead = true
      · have hred : insert_or_update_handle w nref mgr = (IRes.err BErr.ESRCH, w) := by
          simp [insert_or_update_handle, hlook, hfid, hd]
        rw [hred]
        exact ⟨hag, fun hcon => IRes.noConfusion hcon⟩
      · have hred : insert_or_update_handle w nref mgr =
            (IRes.ok target,
              { w with
                log := w.log ++ [EventM.insertNodeInfo nref.node_gid target],
                by_node := insertA nref.node_gid target w.by_node,
                by_handle := (insertA target
                  { node_gid := nref.node_gid, strong := nref.strong, weak := nref.weak,
                    death := none, handle := target } w.by_handle) }) := by
          simp [insert_or_update_handle, hlook, hfid, hd]
        rw [hred]
        exact ⟨tablesAgreeL_insert nref.node_gid target _ rfl hag,
          fun hcon => IRes.noConfusion hcon⟩

theorem update_ref_rest_preserves (w : RefsWorld) (handle : Nat) (inc strong : Bool)
    (hwf : wfKeys w) (hag : tablesAgree w) :
    tablesAgree (update_ref_rest w handle inc strong).2 := by
  cases hlk : lookupA handle w.by_handle with
  | none => simpa [update_ref_rest, hlk] using hag
  | some info =>
    by_cases hz : (info.updateCount inc strong).2 = true
    · cases hdd : info.death with
      | none =>
        have hbh : (update_ref_rest w handle inc strong).2.by_handle
            = removeA handle w.by_handle := by
          simp [update_ref_rest, hlk, hz, hdd]
        have hbn : (update_ref_rest w handle inc strong).2.by_node
            = removeA info.node_gid w.by_node := by
          simp [update_ref_rest, hlk, hz, hdd]
        unfold tablesAgree
        rw [hbh, hbn]
        exact tablesAgreeL_removeA hwf hag hlk
      | some d =>
        have hbh : (update_ref_rest w handle inc strong).2.by_handle
            = removeA handle w.by_handle := by
          simp [update_ref_rest, hlk, hz, hdd]
        have hbn : (update_ref_rest w handle inc strong).2.by_node
            = removeA info.node_gid w.by_node := by
          simp [update_ref_rest, hlk, hz, hdd]
        unfold tablesAgree
        rw [hbh, hbn]
        exact tablesAgreeL_removeA hwf hag hlk
    · have hbh : (update_ref_rest w handle inc strong).2.by_handle
          = updateA handle (fun _ => (info.updateCount inc strong).1) w.by_handle := by
        simp [update_ref_rest, hlk, hz]
      have hbn : (update_ref_rest w handle inc strong).2.by_node = w.by_node := by
        simp [update_ref_rest, hlk, hz]
      unfold tablesAgree
      rw [hbh, hbn]
      apply tablesAgreeL_updateA ?_ hag
      intro v hv
      have hvi : v = info := entry_unique hwf.1 hv (lookupA_mem hlk)
      rw [hvi, updateCount_gid]

theorem update_ref_preserves (mgr : Option (NodeRefM × Bool)) (w : RefsWorld)
    (handle : Nat) (inc strong : Bool) (hwf : wfKeys w) (hag : tablesAgree w) :
    tablesAgree (update_ref mgr w handle inc strong).2 := by
  unfold update_ref
  by_cases hih : (inc && handle == 0) = true
  · rw [if_pos hih]
    cases mgr with
    | none => exact update_ref_rest_preserves w handle inc strong hwf hag
    | some p =>
      obtain ⟨nref, self⟩ := p
      cases self with
      | true => exact hag
      | false => exact (insert_preserves_agree w nref true hwf hag).1
  · rw [if_neg hih]
    exact update_ref_rest_preserves w handle inc strong hwf hag

theorem request_death_preserves (w : RefsWorld) (handle cookie : Nat) (oom : Bool)
    (hag : tablesAgree w) : tablesAgree (request_death w handle cookie oom).2 := by
  cases oom with
  | true => exact hag
  | false =>
    cases hlk : lookupA handle w.by_handle with
    | none => simpa [request_death, hlk] using hag
    | some info =>
      cases hdd : info.death with
      | some d => simpa [request_death, hlk, hdd] using hag
      | none =>
        cases hnode : lookupA info.node_gid w.nodes with
        | none => simpa [request_death, hlk, hdd, hnode] using hag
        | some node =>
          obtain ⟨-, hbh, hbn⟩ := request_death_install w handle cookie info node hlk hdd hnode
          unfold tablesAgree
          rw [hbh, hbn]
          exact tablesAgreeL_updateA (fun v _ => rfl) hag

theorem clear_death_preserves (o : Bool) (w : RefsWorld) (handle cookie : Nat)
    (hag : tablesAgree w) : tablesAgree (clear_death o w handle cookie).2 := by
  cases hlk : lookupA handle w.by_handle with
  | none => simpa [clear_death, hlk] using hag
  | some info =>
    cases hdd : info.death with
    | none => simpa [clear_death, hlk, hdd] using hag
    | some d =>
      by_cases hc : d.cookie = cookie
      · have hbh : (clear_death o w handle cookie).2.by_handle
            = updateA handle (fun i => { i with death := none }) w.by_handle := by
          cases o <;> simp [clear_death, hlk, hdd, hc]
        have hbn : (clear_death o w handle cookie).2.by_node = w.by_node := by
          cases o <;> simp [clear_death, hlk, hdd, hc]
        unfold tablesAgree
        rw [hbh, hbn]
        exact tablesAgreeL_updateA (fun v _ => rfl) hag
      · simpa [clear_death, hlk, hdd, hc] using hag

/-- Counterexample to claim C4: in a world with one handle, the tables
agree, but after the deferred-release teardown they no longer do —
`deferred_release` takes only `by_handle`, leaving `by_node` with a stale
entry. -/
theorem tables_agree_counterexample :
    tablesAgree cxReleaseWorld ∧ ¬ tablesAgree (deferred_release cxReleaseWorld) := by
  constructor <;> decide

/-- Claim C4 (amended): `by_handle` and `by_node` describe identical sets
of (handle, global id) pairs after `insert_or_update_handle` (which also
cannot hit its `.unwrap()` panic from an agreeing state), `update_ref`,
`request_death` and `clear_death`; the deferred-release teardown however
empties `by_handle` while leaving `by_node` unchanged, so the
correspondence does not survive it whenever handles exist. -/
theorem tables_agree_amended :
    (∀ (w : RefsWorld) (nref : NodeRefM) (mgr : Bool), wfKeys w → tablesAgree w →
      tablesAgree (insert_or_update_handle w nref mgr).2
        ∧ (insert_or_update_handle w nref mgr).1 ≠ IRes.panicked)
    ∧ (∀ (mgr : Option (NodeRefM × Bool)) (w : RefsWorld) (handle : Nat) (inc strong : Bool),
        wfKeys w → tablesAgree w → tablesAgree (update_ref mgr w handle inc strong).2)
    ∧ (∀ (w : RefsWorld) (handle cookie : Nat) (oom : Bool),
        tablesAgree w → tablesAgree (request_death w handle cookie oom).2)
    ∧ (∀ (o : Bool) (w : RefsWorld) (handle cookie : Nat),
        tablesAgree w → tablesAgree (clear_death o w handle cookie).2)
    ∧ (∀ w : RefsWorld,
        (deferred_release w).by_handle = [] ∧ (deferred_release w).by_node = w.by_node) := by
  refine ⟨?_, ?_, ?_, ?_, ?_⟩
  · intro w nref mgr hwf hag
    exact insert_preserves_agree w nref mgr hwf hag
  · intro mgr w handle inc strong hwf hag
    exact update_ref_preserves mgr w handle inc strong hwf hag
  · intro w handle cookie oom hag
    exact request_death_preserves w handle cookie oom hag
  · intro o w handle cookie hag
    exact clear_death_preserves o w handle cookie hag
  · intro w
    exact ⟨rfl, rfl⟩

/-- Witness for claim C4's amended theorem: inserting a fresh reference
into a one-handle world keeps the tables in agreement and does not
panic. -/
theorem tables_agree_amended_witness :
    tablesAgree (insert_or_update_handle cxReleaseWorld (scenRef 43) false).2
    ∧ (insert_or_update_handle cxReleaseWorld (scenRef 43) false).1 ≠ IRes.panicked := by
  exact tables_agree_amended.1 cxReleaseWorld (scenRef 43) false (by decide) (by decide)

/-- Counterexample to claim C7: in `cxDeadOwnerWorld` (dead-owner handle 7,
one live ready thread with tid 9), `request_death` returns ok and does not
touch the node's death list, but the death is handed to thread 9's queue —
the process work queue stays empty, contradicting the claim that the death
is pushed to the requesting process's own work queue. -/
theorem request_death_dead_owner_counterexample :
    (request_death cxDeadOwnerWorld 7 777 false).1 = Except.ok ()
    ∧ (request_death cxDeadOwnerWorld 7 777 false).2.nodes = cxDeadOwnerWorld.nodes
    ∧ (request_death cxDeadOwnerWorld 7 777 false).2.work = []
    ∧ (request_death cxDeadOwnerWorld 7 777 false).2.threads
      = [{ tid := 9, looperDead := false,
           death_queue := [{ node_gid := 5, cookie := 777 }] }] := by
  exact ⟨rfl, rfl, rfl, rfl⟩

/-- Claim C7 (amended): `request_death` on a handle whose target node's
owner is dead returns ok, installs the death in the `NodeRefInfo`, and does
not add the death to the node's active death list; the death is delivered
to the requesting process through its work-dispatch primitive `push_work`:
appended to the process work queue when no thread is ready and the process
is alive, handed to the popped ready thread's queue when a live ready
thread exists, and dropped when the requesting process is itself dead. -/
theorem request_death_dead_owner_amended (w : RefsWorld) (handle cookie : Nat)
    (info : NodeRefInfoM) (node : NodeM)
    (hi : lookupA handle w.by_handle = some info) (hd : info.death = none)
    (hn : lookupA info.node_gid w.nodes = some node)
    (hdead : node.owner_is_dead = true) :
    (request_death w handle cookie false).1 = Except.ok ()
    ∧ (request_death w handle cookie false).2.nodes = w.nodes
    ∧ (request_death w handle cookie false).2.by_handle
      = updateA handle
          (fun i => { i with death := some { node_gid := info.node_gid, cookie := cookie } })
          w.by_handle
    ∧ (w.ready = [] → w.is_dead = false →
        (request_death w handle cookie false).2.work
          = w.work ++ [{ node_gid := info.node_gid, cookie := cookie }])
    ∧ (w.ready = [] → w.is_dead = true →
        (request_death w handle cookie false).2.work = w.work)
    ∧ (∀ tid rest t, w.ready = tid :: rest → findSlot w.threads tid = some t →
        t.looperDead = false →
        (request_death w handle cookie false).2.work = w.work
        ∧ (request_death w handle cookie false).2.threads
          = (updSlot w.threads tid
              (fun th => { th with death_queue := th.death_queue
                ++ [{ node_gid := info.node_gid, cookie := cookie }] }))
        ∧ (request_death w handle cookie false).2.ready = rest) := by
  have hred : request_death w handle cookie false
      = (Except.ok (), push_death_work
          { w with by_handle := (updateA handle
              (fun i => { i with death := some { node_gid := info.node_gid, cookie := cookie } })
              w.by_handle) }
          { node_gid := info.node_gid, cookie := cookie }) := by
    simp [request_death, hi, hd, hn, hdead]
  rw [hred]
  refine ⟨rfl, (push_death_work_state _ _).2.2.1, (push_death_work_state _ _).1, ?_, ?_, ?_⟩
  · intro hready halive
    simp [push_death_work, hready, halive]
  · intro hready hisdead
    simp [push_death_work, hready, hisdead]
  · intro tid rest t hready hfind hld
    refine ⟨?_, ?_, ?_⟩ <;> simp [push_death_work, hready, hfind, hld]

/-- Witness for claim C7's amended theorem, at `cxDeadOwnerWorld` with its
live ready thread 9: the call succeeds, the node's death list is untouched,
and the death lands in thread 9's queue. -/
theorem request_death_dead_owner_amended_witness :
    (request_death cxDeadOwnerWorld 7 51966 false).1 = Except.ok ()
    ∧ (request_death cxDeadOwnerWorld 7 51966 false).2.nodes = cxDeadOwnerWorld.nodes
    ∧ (request_death cxDeadOwnerWorld 7 51966 false).2.work = cxDeadOwnerWorld.work
    ∧ (request_death cxDeadOwnerWorld 7 51966 false).2.threads
      = (updSlot cxDeadOwnerWorld.threads 9
          (fun th => { th with death_queue := th.death_queue
            ++ [{ node_gid := 5, cookie := 51966 }] })) := by
  have h := request_death_dead_owner_amended cxDeadOwnerWorld 7 51966
    { node_gid := 5, strong := 1, weak := 0, death := none, handle := 7 }
    { owner_is_dead := true, death_list := [] } rfl rfl rfl rfl
  have hdeliver := h.2.2.2.2.2 9 []
    { tid := 9, looperDead := false, death_queue := [] } rfl rfl rfl
  exact ⟨h.1, h.2.1, hdeliver.1, hdeliver.2.1⟩

/-- Claim C8: `request_death` is idempotent — when the handle already has
an installed death the call returns ok with the state unchanged, and in
particular a second call right after a successful registration is a no-op
that installs nothing, registers nothing, and enqueues nothing. -/
theorem request_death_idempotent :
    (∀ (w : RefsWorld) (handle cookie : Nat) (info : NodeRefInfoM) (d : DeathM),
      lookupA handle w.by_handle = some info → info.death = some d →
      request_death w handle cookie false = (Except.ok (), w))
    ∧ (∀ (w : RefsWorld) (handle cookie : Nat) (info : NodeRefInfoM) (node : NodeM),
      lookupA handle w.by_handle = some info → info.death = none →
      lookupA info.node_gid w.nodes = some node →
      request_death (request_death w handle cookie false).2 handle cookie false
        = (Except.ok (), (request_death w handle cookie false).2)) := by
  constructor
  · intro w handle cookie info d hi hd
    exact request_death_existing w handle cookie info d hi hd
  · intro w handle cookie info node hi hd hn
    obtain ⟨-, hbh, -⟩ := request_death_install w handle cookie info node hi hd hn
    have hlk2 : lookupA handle (request_death w handle cookie false).2.by_handle
        = some { info with death := some { node_gid := info.node_gid, cookie := cookie } } := by
      rw [hbh, lookupA_updateA, hi]
      rfl
    exact request_death_existing _ handle cookie _ _ hlk2 rfl

/-- Witness for claim C8's theorem: registering a death on handle 7 of
`cxDeadOwnerWorld` and then registering again with the same cookie leaves
the state of the first registration untouched. -/
theorem request_death_idempotent_witness :
    request_death (request_death cxDeadOwnerWorld 7 777 false).2 7 777 false
      = (Except.ok (), (request_death cxDeadOwnerWorld 7 777 false).2) := by
  exact request_death_idempotent.2 cxDeadOwnerWorld 7 777
    { node_gid := 5, strong := 1, weak := 0, death := none, handle := 7 }
    { owner_is_dead := true, death_list := [] } rfl rfl rfl

/-- Claim C10: `request_death` with a handle not present in `by_handle`
fails with `EINVAL` (not `ENOENT`); and the early-ok return for a handle
that already has a death never compares the supplied cookie with the
installed one, so a second registration with any different cookie is also
accepted silently as a no-op. -/
theorem request_death_einval_and_cookie_ignored :
    (∀ (w : RefsWorld) (handle cookie : Nat), lookupA handle w.by_handle = none →
      request_death w handle cookie false = (Except.error BErr.EINVAL, w))
    ∧ (∀ (w : RefsWorld) (handle : Nat) (info : NodeRefInfoM) (d : DeathM) (cookie' : Nat),
      lookupA handle w.by_handle = some info → info.death = some d →
      request_death w handle cookie' false = (Except.ok (), w)) := by
  constructor
  · intro w handle cookie hi
    exact request_death_missing w handle cookie hi
  · intro w handle info d cookie' hi hd
    exact request_death_existing w handle cookie' info d hi hd

/-- Witness for claim C10's theorem: an empty world yields `EINVAL` for
handle 5, and re-registering handle 7 with a different cookie (888 instead
of the installed 777) is silently accepted with no change. -/
theorem request_death_einval_and_cookie_ignored_witness :
    request_death emptyWorld 5 1 false = (Except.error BErr.EINVAL, emptyWorld)
    ∧ request_death (request_death cxDeadOwnerWorld 7 777 false).2 7 888 false
      = (Except.ok (), (request_death cxDeadOwnerWorld 7 777 false).2) := by
  constructor
  · exact request_death_einval_and_cookie_ignored.1 emptyWorld 5 1 rfl
  · exact request_death_einval_and_cookie_ignored.2
      (request_death cxDeadOwnerWorld 7 777 false).2 7
      { node_gid := 5, strong := 1, weak := 0,
        death := some { node_gid := 5, cookie := 777 }, handle := 7 }
      { node_gid := 5, cookie := 777 } 888 rfl rfl

end BinderProc
